import Mathlib

/-!
Verification of the slash-command playlist relay (Next.js API route).

The development shallowly embeds the two API-route source files:
the newer route (archive + monthly playlists, with pruning) and the
older single-playlist route.  Strings are modelled as lists of
characters (`List Char`); JavaScript exceptions are modelled with
`Except`; the Spotify Web API is modelled by an environment of call
outcomes threaded through the updater.
-/

namespace DJ

/-! ## Payload Normalizer (parseSlackWebhookPayload) -/

/-- Splitting of a character list on a one-character separator, as
ECMAScript String.split with a single-character separator string
behaves: splitting "a=b=c" on "=" gives ["a","b","c"], splitting the
empty string gives [""], and a trailing separator contributes a final
empty piece. -/
def splitOnChar (sep : Char) : List Char → List (List Char)
  | [] => [[]]
  | c :: cs =>
    match splitOnChar sep cs with
    | [] => [[]]
    | h :: t => if c = sep then [] :: h :: t else (c :: h) :: t

/-- The per-pair step of the normalizer: the source destructures
cur.split("=") as [key, value], so the key is the piece before the
first "=", the value is the piece between the first and the second
"=" (anything after a second "=" is dropped), and a pair with no "="
has an undefined value (modelled as none). -/
def parsePair (cur : List Char) : List Char × Option (List Char) :=
  match splitOnChar '=' cur with
  | [] => ([], none)
  | [k] => (k, none)
  | k :: v :: _ => (k, some v)

/-- A JavaScript-object accumulator entry: a key together with its
(possibly undefined) string value. -/
abbrev SlackTokens := List (List Char × Option (List Char))

/-- Insertion into a JavaScript object literal via spread followed by a
computed key, as in the reduce step of the source: an existing key is
overwritten in place, a new key is appended at the end. -/
def objInsert (m : SlackTokens) (k : List Char) (v : Option (List Char)) : SlackTokens :=
  if m.any fun p => decide (p.1 = k) then
    m.map fun p => if p.1 = k then (k, v) else p
  else m ++ [(k, v)]

/-- Property lookup on the accumulated object: none when the key is
absent, some v (v possibly none, i.e. undefined) when present. -/
def lookupKey (k : List Char) : SlackTokens → Option (Option (List Char))
  | [] => none
  | p :: rest => if p.1 = k then some p.2 else lookupKey k rest

/-- The normalizer of the URL-encoded webhook payload: split on "&",
then reduce each pair through the object accumulator.  No
percent-decoding happens here; it never throws (the function is
total). -/
def parseSlackWebhookPayload (payload : String) : SlackTokens :=
  (splitOnChar '&' payload.data).foldl
    (fun prev cur => objInsert prev (parsePair cur).1 (parsePair cur).2) []

/-- Truthiness of a looked-up payload field, as !!payload[key] in the
source: an absent key and an undefined or empty-string value are
falsy. -/
def truthyStr : Option (Option (List Char)) → Bool
  | some (some v) => !v.isEmpty
  | _ => false

/-- The payload validator: the mapping must carry truthy values for
token, channel_id and text. -/
def isValidSlackWebhookPayload (payload : SlackTokens) : Bool :=
  ["token".data, "channel_id".data, "text".data].all fun key => truthyStr (lookupKey key payload)

/-! ## Track Reference Extractor (getSpotifyURI) -/

/-- Value of a hexadecimal digit character, if any. -/
def hexVal (c : Char) : Option Nat :=
  if '0' ≤ c ∧ c ≤ '9' then some (c.toNat - '0'.toNat)
  else if 'a' ≤ c ∧ c ≤ 'f' then some (c.toNat - 'a'.toNat + 10)
  else if 'A' ≤ c ∧ c ≤ 'F' then some (c.toNat - 'A'.toNat + 10)
  else none

/-- Modelled from the spec: the ECMAScript decodeURIComponent builtin
(no source in src/), which percent-decodes the text.  A "%" followed
by two hex digits decodes to the corresponding byte; a malformed
escape throws URIError (modelled as none).  The model is restricted to
single-byte (ASCII) sequences: a decoded byte of 128 or more (the
start of a UTF-8 multi-byte sequence) is modelled as a decode failure,
which is faithful for all ASCII inputs. -/
def decodeChars : List Char → Option (List Char)
  | [] => some []
  | c :: rest =>
    if c = '%' then
      match rest with
      | c1 :: c2 :: rest2 =>
        match hexVal c1, hexVal c2 with
        | some h1, some h2 =>
          let b := 16 * h1 + h2
          if b < 128 then (decodeChars rest2).map (Char.ofNat b :: ·)
          else none
        | _, _ => none
      | _ => none
    else (decodeChars rest).map (c :: ·)

/-- Whether a pattern list is an initial segment of a list. -/
def startsWithChars : List Char → List Char → Bool
  | [], _ => true
  | _ :: _, [] => false
  | p :: ps, c :: cs => p == c && startsWithChars ps cs

/-- Whether the regular expression https?:\/\/[^ ]* matches at this
position: the alternation "https?" followed by "://" matches exactly
when the text starts with "https://" or with "http://". -/
def isUrlStart (l : List Char) : Bool :=
  startsWithChars "https://".data l || startsWithChars "http://".data l

/-- Leftmost match of URL_REGEX = /(https?:\/\/[^ ]*)/ : scan for the
first position where the pattern matches; the greedy [^ ]* then takes
the whole non-space run from that position (the scheme itself contains
no space, so the match is the non-space run starting at the match
position). -/
def firstUrlMatch : List Char → Option (List Char)
  | [] => none
  | c :: cs =>
    if isUrlStart (c :: cs) then some ((c :: cs).takeWhile (fun ch => ch != ' '))
    else firstUrlMatch cs

/-- JavaScript exceptions that can escape the extractor: URIError from
decodeURIComponent, and the parse error thrown by the spotify-uri
library on a URL it cannot classify. -/
inductive JsError where
  | uriError : JsError
  | couldNotDetermineType : JsError
deriving DecidableEq, Repr

/-- Parse result of the spotify-uri library: a resource type and an
identifier. -/
structure ParsedSpotify where
  type : List Char
  id : List Char
deriving DecidableEq, Repr

/-- Resource types of the music service recognized by the parser. -/
def spotifyTypes : List (List Char) :=
  ["track".data, "album".data, "playlist".data, "artist".data, "show".data, "episode".data]

/-- Characters that may occur inside one path segment (a segment ends
at "/" or at the "?" starting the query). -/
def pathSegChar (c : Char) : Bool := c != '/' && c != '?'

/-- Modelled from the spec: parse of the spotify-uri library (library
code not in src/), on the open.spotify.com URL shape it receives here:
an http(s)://open.spotify.com/ty/id[?query] URL parses to its
resource type and identifier; any other string throws (could not
determine type), including URLs of other hosts. -/
def spotifyParse (s : List Char) : Except JsError ParsedSpotify :=
  if startsWithChars "https://open.spotify.com/".data s then
    spotifyParsePath (s.drop "https://open.spotify.com/".data.length)
  else if startsWithChars "http://open.spotify.com/".data s then
    spotifyParsePath (s.drop "http://open.spotify.com/".data.length)
  else .error .couldNotDetermineType
where
  /-- Classification of the path part: a recognized type segment, a
  slash, then a non-empty identifier segment (the id ends at a further
  slash or at the query). -/
  spotifyParsePath (rest : List Char) : Except JsError ParsedSpotify :=
    match rest.drop (rest.takeWhile pathSegChar).length with
    | '/' :: rest2 =>
      if rest.takeWhile pathSegChar ∈ spotifyTypes ∧ rest2.takeWhile pathSegChar ≠ [] then
        .ok ⟨rest.takeWhile pathSegChar, rest2.takeWhile pathSegChar⟩
      else .error .couldNotDetermineType
    | _ => .error .couldNotDetermineType

/-- Canonical URI rendering of a parsed resource, as toURI of the
spotify-uri library: spotify, colon, the type, colon, the id. -/
def ParsedSpotify.toURI (p : ParsedSpotify) : List Char :=
  "spotify:".data ++ p.type ++ ':' :: p.id

/-- What the extractor does with the stripped candidate string (the
match minus its final character): an empty candidate is falsy and is
returned as-is; otherwise the candidate is parsed — a parse error
propagates, a track parse is canonicalized, any other type returns the
candidate string unchanged. -/
def processCandidate (spotifyURL : List Char) : Except JsError (Option String) :=
  if spotifyURL.isEmpty then .ok (some spotifyURL.asString)
  else
    match spotifyParse spotifyURL with
    | .error e => .error e
    | .ok parsed =>
      if parsed.type = "track".data then .ok (some parsed.toURI.asString)
      else .ok (some spotifyURL.asString)

/-- The extractor: percent-decode the text, find the first URL match,
strip exactly one trailing character with slice(0, -1), and run the
candidate through the spotify-uri parser.  A returned none models the
undefined of the source (no URL found); a returned error models an
exception escaping the function (there is no try/catch inside it). -/
def getSpotifyURI (text : String) : Except JsError (Option String) :=
  match decodeChars text.data with
  | none => .error .uriError
  | some decoded =>
    match firstUrlMatch decoded with
    | none => .ok none
    | some m =>
      let spotifyURL := m.dropLast
      if spotifyURL.isEmpty then .ok (some spotifyURL.asString)
      else
        match spotifyParse spotifyURL with
        | .error e => .error e
        | .ok parsed =>
          if parsed.type = "track".data then .ok (some parsed.toURI.asString)
          else .ok (some spotifyURL.asString)

/-! ## Playlist Pruner (pruneOldTracksFromPlaylist) -/

/-- A playlist entry: the track URI together with the millisecond
timestamp (Date.getTime of added_at) at which it was added. -/
structure PlaylistTrackEntry where
  uri : String
  added_at : Int
deriving DecidableEq, Repr

/-- Age of an entry in days, as in the source: the millisecond
difference TODAY.getTime() minus the entry timestamp, divided by
1000 * 3600 * 24.  The JavaScript number division is modelled by exact
rational division. -/
def diffInDays (now added_at : Int) : ℚ :=
  ((now - added_at : Int) : ℚ) / (1000 * 3600 * 24)

/-- The pruning filter of the source: the fetched entries whose age in
days is at least ageToPruneInDays. -/
def tracksToRemove (now : Int) (items : List PlaylistTrackEntry)
    (ageToPruneInDays : Nat) : List PlaylistTrackEntry :=
  items.filter fun track => decide ((ageToPruneInDays : ℚ) ≤ diffInDays now track.added_at)

/-- The pruner: fetch the first page of at most 50 entries of the
playlist, select the fetched entries at or beyond the retention age,
and issue one bulk removal of their URIs (removal by URI deletes every
entry of the playlist carrying that URI).  Returns the count of
selected entries (the diagnostic log) and the playlist state after the
removal. -/
def pruneOldTracksFromPlaylist (now : Int) (items : List PlaylistTrackEntry)
    (ageToPruneInDays : Nat) : Nat × List PlaylistTrackEntry :=
  let fetched := items.take 50
  let toRemove := tracksToRemove now fetched ageToPruneInDays
  let tracksToRemoveURIs := toRemove.map PlaylistTrackEntry.uri
  (toRemove.length, items.filter fun t => decide (t.uri ∉ tracksToRemoveURIs))

/-! ## Playlist Updater (addTrackToPlaylist, newer route) -/

/-- Outcomes of the outbound Spotify API calls of one invocation, plus
the wall-clock data the invocation observes: whether the token
refresh, each playlist add, the prune page fetch and the bulk removal
succeed, the timestamp stamped on newly added entries, and TODAY at
prune time. -/
structure UpdaterEnv where
  refreshOk : Bool
  archiveAddOk : Bool
  monthlyAddOk : Bool
  getTracksOk : Bool
  removeOk : Bool
  addedAt : Int
  now : Int
deriving DecidableEq, Repr

/-- Remote state of the two configured playlists. -/
structure UpdaterState where
  archive : List PlaylistTrackEntry
  monthly : List PlaylistTrackEntry
deriving DecidableEq, Repr

/-- Observable trace of one updater invocation: the playlist ids of the
add-track calls issued, in issue order, and whether the pruner was
invoked. -/
structure UpdaterTrace where
  addCallsIssued : List String
  pruneInvoked : Bool
deriving DecidableEq, Repr

/-- The updater of the newer route.  The token refresh is awaited
outside any try/catch, so its failure is returned as an error (the
exception propagates to the caller) with no add call issued.  After a
successful refresh, both add-track promises are created (both calls
issued) before Promise.allSettled, which never rejects, so add
outcomes only determine whether each playlist gains the entry.  The
pruner then runs on the monthly playlist with a 30-day window inside
the try block: a failing page fetch or a failing removal throws, is
caught and only logged, leaving the invocation to return the success
marker. -/
def addTrackToPlaylist (env : UpdaterEnv) (archiveId monthlyId : String)
    (st : UpdaterState) (spotifyURL : String) :
    Except String Unit × UpdaterState × UpdaterTrace :=
  if env.refreshOk then
    let archive1 := if env.archiveAddOk then st.archive ++ [⟨spotifyURL, env.addedAt⟩] else st.archive
    let monthly1 := if env.monthlyAddOk then st.monthly ++ [⟨spotifyURL, env.addedAt⟩] else st.monthly
    let issued := [archiveId, monthlyId]
    if env.getTracksOk then
      if env.removeOk then
        (.ok (), ⟨archive1, (pruneOldTracksFromPlaylist env.now monthly1 30).2⟩, ⟨issued, true⟩)
      else
        (.ok (), ⟨archive1, monthly1⟩, ⟨issued, true⟩)
    else
      (.ok (), ⟨archive1, monthly1⟩, ⟨issued, true⟩)
  else
    (.error "refresh failed", st, ⟨[], false⟩)

/-- The HTTP status the route handler sends for the updater outcome:
the catch around the awaited updater call sends 500 on a rejection
(the subsequent unconditional 200 cannot override the already-sent
status); a resolved call falls through to 200. -/
def statusOf (r : Except String Unit) : Nat :=
  match r with
  | .error _ => 500
  | .ok _ => 200

/-- The route handler on the local-development (URL-encoded string
body) path of the newer route: normalize, validate (400 on failure),
extract (400 when no URL is found; an extractor exception escapes the
handler, as the call sits outside the try block), then run the updater
and map its outcome through statusOf.  The authorize-URL logging call
has no observable effect and is omitted. -/
def handler (env : UpdaterEnv) (archiveId monthlyId : String) (st : UpdaterState)
    (body : String) : Except JsError (Nat × UpdaterState × UpdaterTrace) :=
  let tokens := parseSlackWebhookPayload body
  if isValidSlackWebhookPayload tokens then
    match lookupKey "text".data tokens with
    | some (some text) =>
      match getSpotifyURI text.asString with
      | .error e => .error e
      | .ok none => .ok (400, st, ⟨[], false⟩)
      | .ok (some url) =>
        match addTrackToPlaylist env archiveId monthlyId st url with
        | (r, st2, tr) => .ok (statusOf r, st2, tr)
    | _ => .ok (400, st, ⟨[], false⟩)
  else .ok (400, st, ⟨[], false⟩)

/-! ## Helper lemmas -/

/-- A list is an initial segment of itself followed by anything. -/
theorem startsWithChars_same_append (p r : List Char) : startsWithChars p (p ++ r) = true := by
  induction p with
  | nil => rfl
  | cons c cs ih => simp [startsWithChars, ih]

/-- takeWhile walks through a block that satisfies the predicate
throughout and continues in the rest. -/
theorem takeWhile_all_append (p : Char → Bool) (a l : List Char) (h : ∀ c ∈ a, p c = true) :
    (a ++ l).takeWhile p = a ++ l.takeWhile p := by
  induction a with
  | nil => rfl
  | cons c cs ih =>
    have hc : p c = true := h c (by simp)
    simp only [List.cons_append, List.takeWhile_cons, hc, if_true]
    rw [ih fun x hx => h x (by simp [hx])]

/-! ## C1: non-track resource types -/

/-- C1 (amended): when the first URL match of the decoded text parses
as a music-service resource whose type is not track, getSpotifyURI
returns the stripped URL string itself, not the absence marker; the
absence marker is returned only when no URL is found in the text. -/
theorem getSpotifyURI_nonTrack_returns_url (text : String) (d m : List Char)
    (parsed : ParsedSpotify)
    (hdec : decodeChars text.data = some d)
    (hm : firstUrlMatch d = some m)
    (hne : m.dropLast ≠ [])
    (hp : spotifyParse m.dropLast = .ok parsed)
    (ht : parsed.type ≠ "track".data) :
    getSpotifyURI text = .ok (some m.dropLast.asString) := by
  unfold getSpotifyURI
  simp only [hdec, hm, hp, List.isEmpty_iff, hne, if_false, ite_false, ht]

/-- C1 counterexample: the input text carrying an angle-bracket-wrapped
album URL makes getSpotifyURI return the URL string, not the absence
marker claimed. -/
theorem getSpotifyURI_album_counterexample :
    getSpotifyURI "<https://open.spotify.com/album/abc123>" =
      .ok (some "https://open.spotify.com/album/abc123") ∧
    (Except.ok (some "https://open.spotify.com/album/abc123") :
        Except JsError (Option String)) ≠ .ok none :=
  ⟨rfl, by simp⟩

/-- C1 witness: the amended statement evaluated on a playlist URL. -/
theorem getSpotifyURI_nonTrack_returns_url_witness :
    getSpotifyURI "<https://open.spotify.com/playlist/xyz9>" =
      .ok (some "https://open.spotify.com/playlist/xyz9") :=
  getSpotifyURI_nonTrack_returns_url "<https://open.spotify.com/playlist/xyz9>"
    "<https://open.spotify.com/playlist/xyz9>".data
    "https://open.spotify.com/playlist/xyz9>".data
    ⟨"playlist".data, "xyz9".data⟩ rfl rfl (by decide) rfl (by decide)

/-! ## C3: parse exceptions -/

/-- C3 (amended): a parse exception raised by the URI parser on the
stripped candidate propagates out of getSpotifyURI unchanged (there is
no try/catch around the parse); it is not converted to the absence
marker. -/
theorem getSpotifyURI_parse_error_propagates (text : String) (d m : List Char) (e : JsError)
    (hdec : decodeChars text.data = some d)
    (hm : firstUrlMatch d = some m)
    (hne : m.dropLast ≠ [])
    (hp : spotifyParse m.dropLast = .error e) :
    getSpotifyURI text = .error e := by
  unfold getSpotifyURI
  simp only [hdec, hm, hp, List.isEmpty_iff, hne, if_false, ite_false]

/-- C3 counterexample: a text whose URL the URI parser cannot classify
makes getSpotifyURI surface the parse error, not the absence marker
claimed. -/
theorem getSpotifyURI_parse_error_counterexample :
    getSpotifyURI "check https://example.com/song out" = .error .couldNotDetermineType ∧
    (Except.error JsError.couldNotDetermineType :
        Except JsError (Option String)) ≠ .ok none :=
  ⟨rfl, by simp⟩

/-- C3 witness: the amended statement evaluated on a non-music URL. -/
theorem getSpotifyURI_parse_error_propagates_witness :
    getSpotifyURI "see https://example.com/xyz now" = .error .couldNotDetermineType :=
  getSpotifyURI_parse_error_propagates "see https://example.com/xyz now"
    "see https://example.com/xyz now".data "https://example.com/xyz".data
    .couldNotDetermineType rfl rfl (by decide) rfl

/-! ## C7: unconditional stripping of one trailing character -/

/-- C7: whenever a URL is found in the decoded text, the candidate the
extractor hands to the URI parser is the matched non-space run minus
exactly its final character, unconditionally; on a text with no
closing angle bracket the last character of the real URL is lost, as
the concrete track URL shows (its id abc is truncated to ab). -/
theorem getSpotifyURI_strips_last_char :
    (∀ (text : String) (d m : List Char),
        decodeChars text.data = some d → firstUrlMatch d = some m →
        getSpotifyURI text = processCandidate m.dropLast) ∧
    getSpotifyURI "https://open.spotify.com/track/abc" = .ok (some "spotify:track:ab") := by
  constructor
  · intro text d m hdec hm
    unfold getSpotifyURI processCandidate
    simp only [hdec, hm]
  · rfl

/-- C7 witness: the factorization through the stripped candidate
evaluated on a concrete text. -/
theorem getSpotifyURI_strips_last_char_witness :
    getSpotifyURI "hi https://a.b/c> there" =
      processCandidate "https://a.b/c>".data.dropLast :=
  getSpotifyURI_strips_last_char.1 "hi https://a.b/c> there"
    "hi https://a.b/c> there".data "https://a.b/c>".data rfl rfl

/-! ## C6: canonicalization of wrapped track URLs -/

/-- C6: on a text whose first URL match is a track URL of the music
service followed by a query and the closing angle bracket of the
wrapper, getSpotifyURI returns the canonical track URI spotify, colon,
track, colon, the id; in particular, the percent-encoded end-to-end
payload text yields spotify:track:6J1Qcreg3a9hlJuvJCvjl5. -/
theorem getSpotifyURI_track_canonical :
    (∀ (text : String) (d id q : List Char),
        decodeChars text.data = some d →
        firstUrlMatch d =
          some ("https://open.spotify.com/track/".data ++ id ++ '?' :: q ++ ['>']) →
        id ≠ [] → (∀ c ∈ id, pathSegChar c = true) →
        getSpotifyURI text = .ok (some (("spotify:track:".data ++ id).asString))) ∧
    getSpotifyURI "%3Chttps%3A%2F%2Fopen.spotify.com%2Ftrack%2F6J1Qcreg3a9hlJuvJCvjl5%3Fsi%3D2vEISP1TS0iilwluZTeDSQ%3E" =
      .ok (some "spotify:track:6J1Qcreg3a9hlJuvJCvjl5") := by
  constructor
  · intro text d id q hdec hm hne hseg
    have hshape : "https://open.spotify.com/track/".data ++ id ++ '?' :: q ++ ['>'] =
        ("https://open.spotify.com/track/".data ++ id ++ '?' :: q) ++ ['>'] := by
      simp
    rw [hshape] at hm
    have hcand : "https://open.spotify.com/track/".data ++ id ++ '?' :: q =
        "https://open.spotify.com/".data ++ ("track".data ++ '/' :: (id ++ '?' :: q)) := by
      rw [show "https://open.spotify.com/track/".data =
        "https://open.spotify.com/".data ++ "track".data ++ ['/'] from by decide]
      simp
    have hty : ("track".data ++ '/' :: (id ++ '?' :: q)).takeWhile pathSegChar =
        "track".data := by
      rw [takeWhile_all_append pathSegChar _ _ (by decide)]
      simp [List.takeWhile_cons, pathSegChar]
    have hid : (id ++ '?' :: q).takeWhile pathSegChar = id := by
      rw [takeWhile_all_append pathSegChar _ _ hseg]
      simp [List.takeWhile_cons, pathSegChar]
    have hmem : "track".data ∈ spotifyTypes := by decide
    have hparse : spotifyParse ("https://open.spotify.com/track/".data ++ id ++ '?' :: q) =
        .ok ⟨"track".data, id⟩ := by
      rw [hcand]
      unfold spotifyParse
      rw [if_pos (startsWithChars_same_append _ _)]
      simp only [spotifyParse.spotifyParsePath, List.drop_left, hty, hid, hmem, hne,
        ne_eq, not_false_iff, and_true, true_and, if_true, ite_true]
    have hBne : "https://open.spotify.com/track/".data ++ id ++ '?' :: q ≠ [] :=
      @List.append_ne_nil_of_left_ne_nil Char "https://open.spotify.com/track/".data
        (by decide) (id ++ '?' :: q)
    unfold getSpotifyURI
    simp only [hdec, hm, List.dropLast_concat, List.isEmpty_iff, hBne, if_false,
      ite_false, hparse]
    rw [if_pos trivial]
    have htoURI : (ParsedSpotify.mk "track".data id).toURI = "spotify:track:".data ++ id := by
      unfold ParsedSpotify.toURI
      rw [show "spotify:track:".data = "spotify:".data ++ "track".data ++ [':'] from by decide]
      simp
    rw [htoURI]
  · rfl

/-- C6 witness: the universal statement evaluated on the spec's
angle-bracket example text. -/
theorem getSpotifyURI_track_canonical_witness :
    getSpotifyURI "<https://open.spotify.com/track/ABC123?si=xyz>" =
      .ok (some "spotify:track:ABC123") :=
  getSpotifyURI_track_canonical.1 "<https://open.spotify.com/track/ABC123?si=xyz>"
    "<https://open.spotify.com/track/ABC123?si=xyz>".data
    "ABC123".data "si=xyz".data rfl (by decide) (by decide) (by decide)

/-! ## C2: refresh failure aborts, add and prune failures do not -/

/-- C2: a failing token refresh makes the updater return the error (the
exception propagates to the caller), with no add-track call issued and
the playlists untouched, and the handler maps the propagated error to
HTTP 500; a successful refresh makes the updater return the success
marker whatever the add and prune outcomes, so add and prune failures
are never propagated and the handler reports 200. -/
theorem addTrackToPlaylist_refresh_gate (env : UpdaterEnv) (archiveId monthlyId : String)
    (st : UpdaterState) (url : String) :
    (env.refreshOk = false →
      (addTrackToPlaylist env archiveId monthlyId st url).1 = .error "refresh failed" ∧
      (addTrackToPlaylist env archiveId monthlyId st url).2.2.addCallsIssued = [] ∧
      (addTrackToPlaylist env archiveId monthlyId st url).2.1 = st ∧
      statusOf (addTrackToPlaylist env archiveId monthlyId st url).1 = 500) ∧
    (env.refreshOk = true →
      (addTrackToPlaylist env archiveId monthlyId st url).1 = .ok () ∧
      statusOf (addTrackToPlaylist env archiveId monthlyId st url).1 = 200) := by
  constructor
  · intro h
    simp [addTrackToPlaylist, h, statusOf]
  · intro h
    unfold addTrackToPlaylist
    rw [h]
    by_cases hg : env.getTracksOk <;> by_cases hr : env.removeOk <;>
      simp [hg, hr, statusOf]

/-- C2 witness: both halves evaluated, on an invocation whose refresh
fails and on one whose refresh succeeds while both adds and the prune
fail. -/
theorem addTrackToPlaylist_refresh_gate_witness :
    ((addTrackToPlaylist ⟨false, true, true, true, true, 0, 0⟩ "a" "m" ⟨[], []⟩ "u").1 =
        .error "refresh failed" ∧
      (addTrackToPlaylist ⟨false, true, true, true, true, 0, 0⟩ "a" "m" ⟨[], []⟩ "u").2.2.addCallsIssued = [] ∧
      (addTrackToPlaylist ⟨false, true, true, true, true, 0, 0⟩ "a" "m" ⟨[], []⟩ "u").2.1 = ⟨[], []⟩ ∧
      statusOf (addTrackToPlaylist ⟨false, true, true, true, true, 0, 0⟩ "a" "m" ⟨[], []⟩ "u").1 = 500) ∧
    ((addTrackToPlaylist ⟨true, false, false, false, false, 0, 0⟩ "a" "m" ⟨[], []⟩ "u").1 = .ok () ∧
      statusOf (addTrackToPlaylist ⟨true, false, false, false, false, 0, 0⟩ "a" "m" ⟨[], []⟩ "u").1 = 200) :=
  ⟨(addTrackToPlaylist_refresh_gate ⟨false, true, true, true, true, 0, 0⟩ "a" "m" ⟨[], []⟩ "u").1 rfl,
   (addTrackToPlaylist_refresh_gate ⟨true, false, false, false, false, 0, 0⟩ "a" "m" ⟨[], []⟩ "u").2 rfl⟩

/-! ## C4: one add call per playlist, settled regardless of outcome -/

/-- C4: after a successful refresh the updater issues exactly one
add-track call to each of the two configured playlists, in issue
order, reports success (HTTP 200) whatever the individual outcomes,
and the archive playlist's resulting content depends only on the
archive add outcome (a failure of the monthly add neither prevents the
archive add from taking effect nor the 200): when the archive add
succeeds the entry is in the archive playlist. -/
theorem addTrackToPlaylist_concurrent_adds (env : UpdaterEnv) (archiveId monthlyId : String)
    (st : UpdaterState) (url : String) (h : env.refreshOk = true) :
    (addTrackToPlaylist env archiveId monthlyId st url).2.2.addCallsIssued =
      [archiveId, monthlyId] ∧
    statusOf (addTrackToPlaylist env archiveId monthlyId st url).1 = 200 ∧
    (addTrackToPlaylist env archiveId monthlyId st url).2.1.archive =
      (if env.archiveAddOk then st.archive ++ [⟨url, env.addedAt⟩] else st.archive) ∧
    (env.archiveAddOk = true →
      PlaylistTrackEntry.mk url env.addedAt ∈
        (addTrackToPlaylist env archiveId monthlyId st url).2.1.archive) := by
  unfold addTrackToPlaylist
  rw [h]
  by_cases hg : env.getTracksOk <;> by_cases hr : env.removeOk <;>
    by_cases ha : env.archiveAddOk <;> simp [hg, hr, ha, statusOf]

/-- C4 witness: an invocation whose archive add succeeds while the
monthly add fails still issues both calls, reports 200, and leaves the
track in the archive playlist. -/
theorem addTrackToPlaylist_concurrent_adds_witness :
    (addTrackToPlaylist ⟨true, true, false, true, true, 7, 0⟩ "a" "m" ⟨[], []⟩ "u").2.2.addCallsIssued =
      ["a", "m"] ∧
    statusOf (addTrackToPlaylist ⟨true, true, false, true, true, 7, 0⟩ "a" "m" ⟨[], []⟩ "u").1 = 200 ∧
    (addTrackToPlaylist ⟨true, true, false, true, true, 7, 0⟩ "a" "m" ⟨[], []⟩ "u").2.1.archive =
      (if true then ([] : List PlaylistTrackEntry) ++ [⟨"u", 7⟩] else []) ∧
    (true = true →
      PlaylistTrackEntry.mk "u" 7 ∈
        (addTrackToPlaylist ⟨true, true, false, true, true, 7, 0⟩ "a" "m" ⟨[], []⟩ "u").2.1.archive) :=
  addTrackToPlaylist_concurrent_adds ⟨true, true, false, true, true, 7, 0⟩ "a" "m" ⟨[], []⟩ "u" rfl

/-! ## C5: age computation and inclusive pruning boundary -/

/-- C5: the pruner computes each entry's age as the millisecond
difference divided by 1000 * 3600 * 24, which coincides with the
claim's seconds-divided-by-86400 formula; it selects exactly the
examined entries whose age is at least the retention window, an entry
added exactly the window ago is selected, and no entry younger than
the window (in whole days) is ever selected. -/
theorem pruner_age_selection (now : Int) (items : List PlaylistTrackEntry) (w : Nat) :
    (∀ a : Int, diffInDays now a = ((now - a : Int) : ℚ) / 1000 / 86400) ∧
    (∀ t, t ∈ tracksToRemove now items w ↔
        t ∈ items ∧ (w : ℚ) ≤ ((now - t.added_at : Int) : ℚ) / 1000 / 86400) ∧
    (∀ t, t ∈ items → t.added_at = now - (w : Int) * 86400000 →
        t ∈ tracksToRemove now items w) ∧
    (∀ t, ∀ d : Nat, d < w → t.added_at = now - (d : Int) * 86400000 →
        t ∉ tracksToRemove now items w) ∧
    (pruneOldTracksFromPlaylist now items w).1 =
      (tracksToRemove now (items.take 50) w).length := by
  have hdiff : ∀ a : Int, diffInDays now a = ((now - a : Int) : ℚ) / 1000 / 86400 := by
    intro a
    unfold diffInDays
    rw [div_div]
    norm_num
  have hmem : ∀ t, t ∈ tracksToRemove now items w ↔
      t ∈ items ∧ (w : ℚ) ≤ diffInDays now t.added_at := by
    intro t
    unfold tracksToRemove
    rw [List.mem_filter, decide_eq_true_iff]
  refine ⟨hdiff, fun t => ?_, fun t ht hts => ?_, fun t d hd hts hin => ?_, rfl⟩
  · rw [hmem t, hdiff t.added_at]
  · refine (hmem t).2 ⟨ht, ?_⟩
    unfold diffInDays
    rw [hts]
    have heq : now - (now - (w : Int) * 86400000) = (w : Int) * 86400000 := by ring
    rw [heq]
    push_cast
    rw [show ((1000 : ℚ) * 3600 * 24) = 86400000 from by norm_num,
      mul_div_cancel_right₀ _ (by norm_num : (86400000 : ℚ) ≠ 0)]
  · obtain ⟨_, hage⟩ := (hmem t).1 hin
    unfold diffInDays at hage
    rw [hts] at hage
    have heq : now - (now - (d : Int) * 86400000) = (d : Int) * 86400000 := by ring
    rw [heq] at hage
    push_cast at hage
    rw [show ((1000 : ℚ) * 3600 * 24) = 86400000 from by norm_num,
      mul_div_cancel_right₀ _ (by norm_num : (86400000 : ℚ) ≠ 0)] at hage
    have hwd : w ≤ d := by exact_mod_cast hage
    omega

/-- C5 witness: an entry aged exactly 30 days is selected; an entry
aged 29 days is retained. -/
theorem pruner_age_selection_witness :
    (⟨"t", 0⟩ : PlaylistTrackEntry) ∈ tracksToRemove (30 * 86400000) [⟨"t", 0⟩] 30 ∧
    (⟨"u", 0⟩ : PlaylistTrackEntry) ∉ tracksToRemove (29 * 86400000) [⟨"u", 0⟩] 30 :=
  ⟨(pruner_age_selection (30 * 86400000) [⟨"t", 0⟩] 30).2.2.1 ⟨"t", 0⟩ (by simp)
      (by norm_num),
   (pruner_age_selection (29 * 86400000) [⟨"u", 0⟩] 30).2.2.2.1 ⟨"u", 0⟩ 29 (by norm_num)
      (by norm_num)⟩

/-! ## C9: pruning idempotence only holds within one page -/

/-- Rational age comparison of the filter coincides with an integer
millisecond comparison. -/
theorem tracksToRemove_eq_int_filter (now : Int) (items : List PlaylistTrackEntry) (w : Nat) :
    tracksToRemove now items w =
      items.filter fun t => decide ((w : Int) * 86400000 ≤ now - t.added_at) := by
  unfold tracksToRemove
  apply List.filter_congr
  intro t _
  rw [decide_eq_decide]
  unfold diffInDays
  rw [le_div_iff₀ (by norm_num : (0 : ℚ) < 1000 * 3600 * 24)]
  constructor
  · intro h
    norm_num at h
    exact_mod_cast h
  · intro h
    norm_num
    exact_mod_cast h

/-- Evaluation form of the pruner over the integer comparison. -/
theorem pruneOldTracksFromPlaylist_eq_int (now : Int) (items : List PlaylistTrackEntry)
    (w : Nat) :
    pruneOldTracksFromPlaylist now items w =
      (((items.take 50).filter fun t => decide ((w : Int) * 86400000 ≤ now - t.added_at)).length,
        items.filter fun t =>
          decide (t.uri ∉ (((items.take 50).filter fun t2 =>
            decide ((w : Int) * 86400000 ≤ now - t2.added_at)).map PlaylistTrackEntry.uri))) := by
  simp only [pruneOldTracksFromPlaylist, tracksToRemove_eq_int_filter]

/-- C9 counterexample: a playlist of 51 stale entries (the page size
is 50): the first pruner run removes the 50 fetched entries, the
second run removes the surviving one, so the second run does not
remove zero entries. -/
theorem prune_second_run_counterexample :
    (pruneOldTracksFromPlaylist (31 * 86400000)
        (pruneOldTracksFromPlaylist (31 * 86400000)
          (List.replicate 50 ⟨"a", 0⟩ ++ [⟨"b", 0⟩]) 30).2 30).1 = 1 ∧
    (1 : Nat) ≠ 0 := by
  rw [pruneOldTracksFromPlaylist_eq_int, pruneOldTracksFromPlaylist_eq_int]
  exact ⟨rfl, by decide⟩

/-- C9 (amended): on a playlist of at most the page size (50 entries),
the second pruner run at the same current time on the state produced
by the first run selects and removes zero entries and leaves the state
unchanged; beyond 50 entries stale entries outside the fetched page
survive the first run and can still be removed by the second. -/
theorem prune_idempotent_within_page (now : Int) (items : List PlaylistTrackEntry) (w : Nat)
    (h : items.length ≤ 50) :
    (pruneOldTracksFromPlaylist now (pruneOldTracksFromPlaylist now items w).2 w).1 = 0 ∧
    (pruneOldTracksFromPlaylist now (pruneOldTracksFromPlaylist now items w).2 w).2 =
      (pruneOldTracksFromPlaylist now items w).2 := by
  have htake : items.take 50 = items := List.take_of_length_le h
  have hSdef : (pruneOldTracksFromPlaylist now items w).2 =
      items.filter fun t =>
        decide (t.uri ∉ (tracksToRemove now items w).map PlaylistTrackEntry.uri) := by
    unfold pruneOldTracksFromPlaylist
    rw [htake]
  have hSlen : (pruneOldTracksFromPlaylist now items w).2.length ≤ 50 := by
    rw [hSdef]
    exact le_trans (List.length_filter_le _ _) h
  have hStake : (pruneOldTracksFromPlaylist now items w).2.take 50 =
      (pruneOldTracksFromPlaylist now items w).2 := List.take_of_length_le hSlen
  have hsel : tracksToRemove now ((pruneOldTracksFromPlaylist now items w).2.take 50) w = [] := by
    rw [hStake, hSdef]
    unfold tracksToRemove
    rw [List.filter_eq_nil_iff]
    intro t ht hpred
    rw [List.mem_filter] at ht
    obtain ⟨htmem, hnot⟩ := ht
    rw [decide_eq_true_iff] at hnot
    have htin : t ∈ tracksToRemove now items w := by
      unfold tracksToRemove
      exact List.mem_filter.2 ⟨htmem, hpred⟩
    exact hnot (List.mem_map.2 ⟨t, htin, rfl⟩)
  constructor
  · have h1 : (pruneOldTracksFromPlaylist now (pruneOldTracksFromPlaylist now items w).2 w).1 =
        (tracksToRemove now ((pruneOldTracksFromPlaylist now items w).2.take 50) w).length := rfl
    rw [h1, hsel]
    rfl
  · have h2 : (pruneOldTracksFromPlaylist now (pruneOldTracksFromPlaylist now items w).2 w).2 =
        (pruneOldTracksFromPlaylist now items w).2.filter fun t =>
          decide (t.uri ∉ (tracksToRemove now
            ((pruneOldTracksFromPlaylist now items w).2.take 50) w).map
              PlaylistTrackEntry.uri) := rfl
    rw [h2, hsel]
    simp

/-- C9 witness: the amended statement evaluated on a one-entry stale
playlist. -/
theorem prune_idempotent_within_page_witness :
    (pruneOldTracksFromPlaylist 2592000000
        (pruneOldTracksFromPlaylist 2592000000 [⟨"x", 0⟩] 30).2 30).1 = 0 ∧
    (pruneOldTracksFromPlaylist 2592000000
        (pruneOldTracksFromPlaylist 2592000000 [⟨"x", 0⟩] 30).2 30).2 =
      (pruneOldTracksFromPlaylist 2592000000 [⟨"x", 0⟩] 30).2 :=
  prune_idempotent_within_page 2592000000 [⟨"x", 0⟩] 30 (by decide)

/-! ## C8: splitting of a key=value pair -/

/-- Splitting never yields the empty list of pieces. -/
theorem splitOnChar_ne_nil (sep : Char) (l : List Char) : splitOnChar sep l ≠ [] := by
  cases l with
  | nil => simp [splitOnChar]
  | cons c cs =>
    simp only [splitOnChar]
    cases hs : splitOnChar sep cs with
    | nil => simp
    | cons h t => by_cases hc : c = sep <;> simp [hc]

/-- A separator-free list is one whole piece. -/
theorem splitOnChar_of_not_mem (sep : Char) (l : List Char) (h : sep ∉ l) :
    splitOnChar sep l = [l] := by
  induction l with
  | nil => rfl
  | cons c cs ih =>
    have hc : ¬(c = sep) := fun hcc => h (by simp [hcc])
    simp only [splitOnChar, ih fun hm => h (List.mem_cons_of_mem _ hm)]
    simp [hc]

/-- Splitting walks past a separator-free block followed by the
separator. -/
theorem splitOnChar_append_sep (sep : Char) (k rest : List Char) (h : sep ∉ k) :
    splitOnChar sep (k ++ sep :: rest) = k :: splitOnChar sep rest := by
  induction k with
  | nil =>
    simp only [List.nil_append, splitOnChar]
    cases hs : splitOnChar sep rest with
    | nil => exact absurd hs (splitOnChar_ne_nil sep rest)
    | cons a b => simp
  | cons c cs ih =>
    have hc : ¬(c = sep) := fun hcc => h (by simp [hcc])
    simp only [List.cons_append, splitOnChar, List.append_eq]
    rw [ih fun hm => h (List.mem_cons_of_mem _ hm)]
    simp [hc]

/-- C8 (amended): within each pair the normalizer splits on every
equals sign and keeps only the first two pieces: the key is the text
before the first equals sign and the value is the text between the
first and the second (text after a second equals sign is dropped, not
kept in the value); a pair containing no equals sign yields the key
mapped to an undefined value.  The normalizer itself is a total
function, so it never throws. -/
theorem parsePair_first_two_segments (k v w : List Char) (hk : '=' ∉ k) (hv : '=' ∉ v) :
    parsePair (k ++ '=' :: v) = (k, some v) ∧
    parsePair (k ++ '=' :: (v ++ '=' :: w)) = (k, some v) ∧
    parsePair k = (k, none) := by
  refine ⟨?_, ?_, ?_⟩
  · unfold parsePair
    rw [splitOnChar_append_sep _ _ _ hk, splitOnChar_of_not_mem _ _ hv]
  · unfold parsePair
    rw [splitOnChar_append_sep _ _ _ hk, splitOnChar_append_sep _ _ _ hv]
  · unfold parsePair
    rw [splitOnChar_of_not_mem _ _ hk]

/-- C8 counterexample: on the pair k=a=b the normalizer maps k to the
value a, not to the claimed remainder a=b. -/
theorem parseSlackWebhookPayload_drops_counterexample :
    parseSlackWebhookPayload "k=a=b" = [("k".data, some "a".data)] ∧
    some "a".data ≠ some "a=b".data :=
  ⟨rfl, by decide⟩

/-- C8 witness: the amended pair splitting evaluated on token=a=b. -/
theorem parsePair_first_two_segments_witness :
    parsePair ("token".data ++ '=' :: ("a".data ++ '=' :: "b".data)) =
      ("token".data, some "a".data) :=
  (parsePair_first_two_segments "token".data "a".data "b".data (by decide) (by decide)).2.1

/-! ## C10: later occurrences of a key overwrite earlier ones -/

/-- Looking a key the object carries up after updating every entry
with that key in place finds the new value. -/
theorem lookupKey_map_update_self (m : SlackTokens) (k : List Char) (v : Option (List Char))
    (h : (m.any fun p => decide (p.1 = k)) = true) :
    lookupKey k (m.map fun p => if p.1 = k then (k, v) else p) = some v := by
  induction m with
  | nil => simp at h
  | cons p rest ih =>
    by_cases hp : p.1 = k
    · simp [lookupKey, hp]
    · have h2 : (rest.any fun p => decide (p.1 = k)) = true := by
        simp only [List.any_cons, Bool.or_eq_true] at h
        rcases h with h | h
        · exact absurd (of_decide_eq_true h) hp
        · exact h
      simp [lookupKey, hp, ih h2]

/-- Updating entries of a different key does not change a lookup. -/
theorem lookupKey_map_update_ne (m : SlackTokens) (k k2 : List Char) (v : Option (List Char))
    (h : ¬(k2 = k)) :
    lookupKey k (m.map fun p => if p.1 = k2 then (k2, v) else p) = lookupKey k m := by
  induction m with
  | nil => rfl
  | cons p rest ih =>
    by_cases hp : p.1 = k2
    · have hpk : ¬(p.1 = k) := by rw [hp]; exact h
      simp [lookupKey, hp, hpk, h, ih]
    · simp [lookupKey, hp, ih]

/-- Lookup across an append falls through to the right part exactly
when the left part misses the key. -/
theorem lookupKey_append (m m2 : SlackTokens) (k : List Char) :
    lookupKey k (m ++ m2) =
      match lookupKey k m with
      | some r => some r
      | none => lookupKey k m2 := by
  induction m with
  | nil => rfl
  | cons p rest ih =>
    by_cases hp : p.1 = k <;> simp [lookupKey, hp, ih]

/-- A key no entry carries looks up to none. -/
theorem lookupKey_none_of_not_any (m : SlackTokens) (k : List Char)
    (h : (m.any fun p => decide (p.1 = k)) = false) : lookupKey k m = none := by
  induction m with
  | nil => rfl
  | cons p rest ih =>
    simp only [List.any_cons, Bool.or_eq_false_iff, decide_eq_false_iff_not] at h
    simp [lookupKey, h.1, ih h.2]

/-- Lookup after a JavaScript-object insertion: the inserted key now
holds the inserted value, all other keys are untouched. -/
theorem lookupKey_objInsert (m : SlackTokens) (k k2 : List Char) (v : Option (List Char)) :
    lookupKey k (objInsert m k2 v) = if k2 = k then some v else lookupKey k m := by
  unfold objInsert
  by_cases hany : (m.any fun p => decide (p.1 = k2)) = true
  · rw [if_pos hany]
    by_cases hk : k2 = k
    · rw [hk] at hany ⊢
      rw [if_pos rfl]
      exact lookupKey_map_update_self _ _ _ hany
    · rw [lookupKey_map_update_ne _ _ _ _ hk, if_neg hk]
  · rw [if_neg hany, lookupKey_append]
    by_cases hk : k2 = k
    · have h0 : lookupKey k m = none := by
        apply lookupKey_none_of_not_any
        rw [← hk]
        exact Bool.eq_false_iff.2 hany
      simp [h0, lookupKey, hk]
    · cases h2 : lookupKey k m with
      | some r => simp [h2, hk]
      | none => simp [h2, hk, lookupKey]

/-- Lookup through the reduce of pairs into the object accumulator:
the last pair carrying the key wins; with no such pair the
accumulator's binding is kept. -/
theorem lookupKey_foldl_objInsert (ps : SlackTokens) (m : SlackTokens) (k : List Char) :
    lookupKey k (ps.foldl (fun prev kv => objInsert prev kv.1 kv.2) m) =
      ((ps.filter fun p => decide (p.1 = k)).getLast?).elim (lookupKey k m)
        (fun p => some p.2) := by
  induction ps generalizing m with
  | nil => rfl
  | cons q ps ih =>
    rw [List.foldl_cons, ih, List.filter_cons]
    by_cases hq : q.1 = k
    · rw [if_pos (by simpa using hq)]
      cases hfl : (ps.filter fun p => decide (p.1 = k)) with
      | nil => simp [lookupKey_objInsert, hq]
      | cons a b =>
        rw [List.getLast?_cons_cons]
        cases hgl : (a :: b).getLast? with
        | none => simp at hgl
        | some r => simp
    · rw [if_neg (by simpa using hq)]
      cases hgl : (ps.filter fun p => decide (p.1 = k)).getLast? with
      | none => simp [hgl, lookupKey_objInsert, hq]
      | some r => simp [hgl]

/-- Keys after a JavaScript-object insertion: unchanged when the key
existed, extended at the end when it did not. -/
theorem keys_objInsert (m : SlackTokens) (k : List Char) (v : Option (List Char)) :
    (objInsert m k v).map Prod.fst =
      if (m.any fun p => decide (p.1 = k)) = true then m.map Prod.fst
      else m.map Prod.fst ++ [k] := by
  unfold objInsert
  by_cases hany : (m.any fun p => decide (p.1 = k)) = true
  · rw [if_pos hany, if_pos hany, List.map_map]
    apply List.map_congr_left
    intro p _
    by_cases hp : p.1 = k
    · simp [Function.comp, hp]
    · simp [Function.comp, hp]
  · rw [if_neg hany, if_neg hany, List.map_append]
    rfl

/-- A JavaScript-object insertion keeps the keys without
duplicates. -/
theorem nodup_keys_objInsert (m : SlackTokens) (k : List Char) (v : Option (List Char))
    (h : (m.map Prod.fst).Nodup) : ((objInsert m k v).map Prod.fst).Nodup := by
  rw [keys_objInsert]
  by_cases hany : (m.any fun p => decide (p.1 = k)) = true
  · rw [if_pos hany]
    exact h
  · rw [if_neg hany]
    have hnot : k ∉ m.map Prod.fst := by
      intro hkin
      obtain ⟨p, hp, hpk⟩ := List.mem_map.1 hkin
      exact hany (List.any_eq_true.2 ⟨p, hp, by simp [hpk]⟩)
    simp [List.nodup_append, h, hnot]

/-- The reduce of pairs into the object accumulator keeps the keys
without duplicates. -/
theorem nodup_keys_foldl_objInsert (ps : SlackTokens) (m : SlackTokens)
    (h : (m.map Prod.fst).Nodup) :
    ((ps.foldl (fun prev kv => objInsert prev kv.1 kv.2) m).map Prod.fst).Nodup := by
  induction ps generalizing m with
  | nil => exact h
  | cons q ps ih => exact ih _ (nodup_keys_objInsert _ _ _ h)

/-- The normalizer is the reduce of the parsed pairs into the object
accumulator. -/
theorem parseSlackWebhookPayload_eq_foldl_pairs (payload : String) :
    parseSlackWebhookPayload payload =
      ((splitOnChar '&' payload.data).map parsePair).foldl
        (fun prev kv => objInsert prev kv.1 kv.2) [] := by
  unfold parseSlackWebhookPayload
  rw [List.foldl_map]

/-- C10: when several pairs of the payload share a key, the normalized
mapping holds the value of the last occurrence of that key, and the
mapping carries each distinct key exactly once (its key list has no
duplicates). -/
theorem parseSlackWebhookPayload_last_occurrence (payload : String) (k : List Char) :
    lookupKey k (parseSlackWebhookPayload payload) =
      ((((splitOnChar '&' payload.data).map parsePair).filter
          fun p => decide (p.1 = k)).getLast?).map Prod.snd ∧
    ((parseSlackWebhookPayload payload).map Prod.fst).Nodup := by
  constructor
  · rw [parseSlackWebhookPayload_eq_foldl_pairs, lookupKey_foldl_objInsert]
    cases hgl : ((((splitOnChar '&' payload.data).map parsePair).filter
        fun p => decide (p.1 = k)).getLast?) with
    | none => simp [lookupKey]
    | some r => simp
  · rw [parseSlackWebhookPayload_eq_foldl_pairs]
    exact nodup_keys_foldl_objInsert _ _ (by simp)

end DJ
